import Mathlib

set_option maxRecDepth 100000

/-!
Verification of the robin document-ingestion and vectorization subsystem.

The development embeds, as executable Lean functions over `List Char`,
`List ℚ` and explicit environment records, the functions of
`backend/rag/pdf_cleaner.py`, `backend/rag/vector_store.py` and
`backend/alpaca_alp/data_vectorizer.py` that the verified properties
concern.  Python regular expressions are embedded pattern by pattern:
for each concrete pattern appearing in the source, a matcher computing
the length of the (leftmost, backtracking-correct) match at a given
position is defined, and `re.sub` is embedded as a left-to-right scan
that skips each match.  External HTTP and vector-index calls are
embedded as explicit outcome parameters.  CPython set iteration order,
which depends on the per-process string-hash salt, is embedded as an
explicit reordering parameter constrained to permutations.
-/

namespace Robin

/-! ## Character helpers (Python `\s`, `\d`, `str.lower`, `str.strip`) -/

/-- Python regular-expression class `\s` on the ASCII range (space, tab,
newline, carriage return, vertical tab, form feed). -/
def pySpace (c : Char) : Bool :=
  c = ' ' || c = '\t' || c = '\n' || c = '\r' || c = '\x0b' || c = '\x0c'

/-- Python `str.strip()`: remove leading and trailing whitespace. -/
def pyStrip (t : List Char) : List Char :=
  ((t.dropWhile pySpace).reverse.dropWhile pySpace).reverse

/-- Length of the run of non-whitespace characters at the head (the text
consumed by a greedy `\S+`, possibly empty). -/
def nonSpaceRun (t : List Char) : Nat :=
  (t.takeWhile (fun c => !pySpace c)).length

/-- Lowercasing as applied by the classifier (`str.lower()`); the table
entries are ASCII, for which `Char.toLower` agrees with Python. -/
def lowerList (t : List Char) : List Char :=
  t.map Char.toLower

/-- Replacement of every whitespace run by a single space: the
`excessive_whitespace` substitution `re.sub(r"\s+", " ", text)`. -/
def squashWs : List Char → List Char
  | [] => []
  | [c] => [if pySpace c then ' ' else c]
  | c :: d :: cs =>
    if pySpace c && pySpace d then squashWs (d :: cs)
    else (if pySpace c then ' ' else c) :: squashWs (d :: cs)

/-- Largest index of a newline in the list, if any (used for the
backtracking of a trailing `\s*$`). -/
def lastNewlineAux : List Char → Nat → Option Nat → Option Nat
  | [], _, acc => acc
  | c :: cs, i, acc => lastNewlineAux cs (i + 1) (if c = '\n' then some i else acc)

def lastNewline (w : List Char) : Option Nat :=
  lastNewlineAux w 0 none

/-! ## Generic `re.sub(pattern, "", text)` scanner

A matcher takes the line-start flag (for `^` under `re.MULTILINE`) and
the suffix of the text at the current position, and returns the length
of the match there, if any.  The scanner visits positions left to
right, removes each match and resumes immediately after it, exactly as
`re.sub` does.  Fuel is the initial length of the text; every step
consumes at least one character, so the fuel never runs out. -/

def scanSub (m : Bool → List Char → Option Nat) : Nat → Bool → List Char → List Char
  | 0, _, t => t
  | _, _, [] => []
  | f + 1, ls, c :: cs =>
    match m ls (c :: cs) with
    | some (n + 1) =>
      let lastC := (c :: cs).getD n ' '
      scanSub m f (lastC = '\n') (List.drop n cs)
    | _ => c :: scanSub m f (c = '\n') cs

/-- One `re.sub(pattern, "", text)` pass over the whole text; position 0
counts as a line start. -/
def pySub (m : Bool → List Char → Option Nat) (t : List Char) : List Char :=
  scanSub m t.length true t

/-- Wrapper for the patterns that are not anchored at a line start. -/
def noAnchor (m : List Char → Option Nat) : Bool → List Char → Option Nat :=
  fun _ t => m t

/-- Wrapper for the `re.MULTILINE` patterns anchored by `^`. -/
def lineAnchor (m : List Char → Option Nat) : Bool → List Char → Option Nat :=
  fun ls t => if ls then m t else none

/-! ## The `noise_patterns` matchers of `PDFCleaner.first_pass_clean` -/

/-- Match of `https?://\S+|www\.\S+` at the current position. -/
def mUrls (t : List Char) : Option Nat :=
  let alt2 :=
    if ['w', 'w', 'w', '.'].isPrefixOf t then
      let n := nonSpaceRun (t.drop 4)
      if n = 0 then none else some (4 + n)
    else none
  if ['h', 't', 't', 'p', 's', ':', '/', '/'].isPrefixOf t then
    let n := nonSpaceRun (t.drop 8)
    if n = 0 then alt2 else some (8 + n)
  else if ['h', 't', 't', 'p', ':', '/', '/'].isPrefixOf t then
    let n := nonSpaceRun (t.drop 7)
    if n = 0 then alt2 else some (7 + n)
  else alt2

/-- Match of `\S+@\S+` at the current position: the whole non-whitespace
run is consumed when it carries an `@` that is neither its first nor its
last character. -/
def mEmails (t : List Char) : Option Nat :=
  let r := t.takeWhile (fun c => !pySpace c)
  if r.length < 3 then none
  else if ((r.drop 1).take (r.length - 2)).contains '@' then some r.length
  else none

/-- Match of `^\s*\d+\s*$` (MULTILINE) at a line start.  The leading and
trailing `\s*` may cross newlines; the trailing `$` makes the match end
at the end of the text or just before a newline of the trailing
whitespace run (the largest such position, by greediness). -/
def mPageNumbers (t : List Char) : Option Nat :=
  let a := (t.takeWhile pySpace).length
  let d := ((t.drop a).takeWhile Char.isDigit).length
  if d = 0 then none
  else
    let rest := t.drop (a + d)
    let w := rest.takeWhile pySpace
    if w.length = rest.length then some (a + d + w.length)
    else
      match lastNewline w with
      | some i => some (a + d + i)
      | none => none

/-- Match of `^(?:Page|Chapter|Section)\s+\d+.*$` (MULTILINE) at a line
start; `.*` runs to the end of the line and `$` then always holds. -/
def mHeadersFooters (t : List Char) : Option Nat :=
  let hd :=
    if ['P', 'a', 'g', 'e'].isPrefixOf t then some 4
    else if ['C', 'h', 'a', 'p', 't', 'e', 'r'].isPrefixOf t then some 7
    else if ['S', 'e', 'c', 't', 'i', 'o', 'n'].isPrefixOf t then some 7
    else none
  match hd with
  | none => none
  | some k =>
    let w := ((t.drop k).takeWhile pySpace).length
    if w = 0 then none
    else
      let d := ((t.drop (k + w)).takeWhile Char.isDigit).length
      if d = 0 then none
      else
        let r := ((t.drop (k + w + d)).takeWhile (fun c => c ≠ '\n')).length
        some (k + w + d + r)

/-- Match of `^[\s•\-*]\s*` (MULTILINE) at a line start: one marker
character, then a greedy whitespace run (which may cross newlines). -/
def mBulletPoints (t : List Char) : Option Nat :=
  match t with
  | [] => none
  | c :: cs =>
    if pySpace c || c = '•' || c = '-' || c = '*' then
      some (1 + (cs.takeWhile pySpace).length)
    else none

/-- Match of `^(?:Table of Contents|Contents).*$` (MULTILINE). -/
def mToc (t : List Char) : Option Nat :=
  let hd :=
    if "Table of Contents".data.isPrefixOf t then some 17
    else if "Contents".data.isPrefixOf t then some 8
    else none
  match hd with
  | none => none
  | some k => some (k + ((t.drop k).takeWhile (fun c => c ≠ '\n')).length)

/-- Match of `©.*$` (no MULTILINE): `$` only holds at the end of the
text or just before a final newline, so only a `©` on the last line
matches. -/
def mCopyright (t : List Char) : Option Nat :=
  match t with
  | '©' :: cs =>
    let r := (cs.takeWhile (fun c => c ≠ '\n')).length
    if 1 + r = t.length then some (1 + r)
    else if 1 + r + 1 = t.length then some (1 + r)
    else none
  | _ => none

/-- Match of `ISBN.*$` (no MULTILINE), same `$` behaviour as `mCopyright`. -/
def mIsbn (t : List Char) : Option Nat :=
  if ['I', 'S', 'B', 'N'].isPrefixOf t then
    let r := ((t.drop 4).takeWhile (fun c => c ≠ '\n')).length
    if 4 + r = t.length then some (4 + r)
    else if 4 + r + 1 = t.length then some (4 + r)
    else none
  else none

/-- Match of `^(?:References|Bibliography).*$` (MULTILINE). -/
def mReferences (t : List Char) : Option Nat :=
  let hd :=
    if "References".data.isPrefixOf t then some 10
    else if "Bibliography".data.isPrefixOf t then some 12
    else none
  match hd with
  | none => none
  | some k => some (k + ((t.drop k).takeWhile (fun c => c ≠ '\n')).length)

/-- Match of `^\d+\.\s*` (MULTILINE) at a line start. -/
def mFootnotes (t : List Char) : Option Nat :=
  let d := (t.takeWhile Char.isDigit).length
  if d = 0 then none
  else
    match t.drop d with
    | '.' :: rest => some (d + 1 + (rest.takeWhile pySpace).length)
    | _ => none

/-- Embedding of `PDFCleaner.first_pass_clean`: the eleven noise
substitutions in source order, then `str.strip()`.  The source wraps the
body in a broad `try/except` that returns the input on error; no step of
the embedded pipeline can fail, so the `except` arm is dead here. -/
def first_pass_clean (text : List Char) : List Char :=
  let t1 := pySub (noAnchor mUrls) text
  let t2 := pySub (noAnchor mEmails) t1
  let t3 := pySub (lineAnchor mPageNumbers) t2
  let t4 := pySub (lineAnchor mHeadersFooters) t3
  let t5 := pySub (lineAnchor mBulletPoints) t4
  let t6 := squashWs t5
  let t7 := pySub (lineAnchor mToc) t6
  let t8 := pySub (noAnchor mCopyright) t7
  let t9 := pySub (noAnchor mIsbn) t8
  let t10 := pySub (lineAnchor mReferences) t9
  let t11 := pySub (lineAnchor mFootnotes) t10
  pyStrip t11

/-! ## `PDFCleaner.second_pass_clean`

The second pass collects `re.finditer` spans and then mutates the text
inside the loop while the spans still refer to the text as it was when
`finditer` ran; the embedding reproduces this by computing all spans
first and then folding the two insertions over the mutated text. -/

/-- Character class of `patterns["math_symbols"]`, in source order. -/
def mathSymbolClass : List Char :=
  "∂∫∮∇Δ∑∏∞→←↔∈∉⊂⊃∪∩∅∀∃¬∧∨⇒⇔≡≠≈≅∼∝±×÷√αβγδεζηθικλμνξοπρστυφχψωΓΔΘΛΞΠΣΦΨΩ".data

/-- Spans of `re.finditer` for a single-character class. -/
def classSpansAux (cls : List Char) : List Char → Nat → List (Nat × Nat)
  | [], _ => []
  | c :: cs, i =>
    if cls.contains c then (i, i + 1) :: classSpansAux cls cs (i + 1)
    else classSpansAux cls cs (i + 1)

/-- Insertion of a single space at an index: `text[:i] + " " + text[i:]`. -/
def insertSpaceAt (i : Nat) (t : List Char) : List Char :=
  t.take i ++ ' ' :: t.drop i

/-- Body of the span loop: insert a space before `start` when the
character there is not already a space, then likewise after `end`,
against the current (possibly already shifted) text. -/
def adjustSpan (t : List Char) (s e : Nat) : List Char :=
  let t1 := if 0 < s && t.getD (s - 1) ' ' ≠ ' ' then insertSpaceAt s t else t
  if e < t1.length && t1.getD e ' ' ≠ ' ' then insertSpaceAt e t1 else t1

def adjustSpans (spans : List (Nat × Nat)) (t : List Char) : List Char :=
  spans.foldl (fun acc p => adjustSpan acc p.1 p.2) t

/-- Spans of `re.finditer(r"\$[^$]+\$", text)`: a dollar, a nonempty run
without dollars, a dollar; non-overlapping, left to right. -/
def eqSpans : Nat → List Char → Nat → List (Nat × Nat)
  | 0, _, _ => []
  | _, [], _ => []
  | f + 1, c :: cs, i =>
    if c = '$' then
      let k := (cs.takeWhile (fun x => x ≠ '$')).length
      if 0 < k && k < cs.length then
        (i, i + k + 2) :: eqSpans f (cs.drop (k + 1)) (i + k + 2)
      else eqSpans f cs (i + 1)
    else eqSpans f cs (i + 1)

/-- Match of `\\end\{[^}]+\}` at the current position. -/
def latexEndAt (t : List Char) : Option Nat :=
  if ['\\', 'e', 'n', 'd', '{'].isPrefixOf t then
    let m := ((t.drop 5).takeWhile (fun c => c ≠ '}')).length
    if 0 < m && m < (t.drop 5).length then some (5 + m + 1) else none
  else none

/-- Lazy search (`.*?` under `re.DOTALL`) for the first `\\end{...}`
match at or after the current position: offset and match length. -/
def findLatexEnd : Nat → List Char → Nat → Option (Nat × Nat)
  | 0, _, _ => none
  | f + 1, t, off =>
    match latexEndAt t with
    | some n => some (off, n)
    | none =>
      match t with
      | [] => none
      | _ :: cs => findLatexEnd f cs (off + 1)

/-- Spans of `re.finditer(r"\\begin\{[^}]+\}.*?\\end\{[^}]+\}", text, re.DOTALL)`. -/
def latexSpans : Nat → List Char → Nat → List (Nat × Nat)
  | 0, _, _ => []
  | _, [], _ => []
  | f + 1, c :: cs, i =>
    let t := c :: cs
    if ['\\', 'b', 'e', 'g', 'i', 'n', '{'].isPrefixOf t then
      let k := ((t.drop 7).takeWhile (fun x => x ≠ '}')).length
      if 0 < k && k < (t.drop 7).length then
        let p := 7 + k + 1
        match findLatexEnd (t.drop p).length (t.drop p) 0 with
        | some (off, n) =>
          let e := p + off + n
          (i, i + e) :: latexSpans f (t.drop e) (i + e)
        | none => latexSpans f cs (i + 1)
      else latexSpans f cs (i + 1)
    else latexSpans f cs (i + 1)

/-- Token of a financial-formula pattern: a literal character, a
character class, or a greedy `\s*` (every `\s*` in those patterns is
followed by a non-whitespace literal, so greediness needs no
backtracking). -/
inductive Tok where
  | lit (c : Char)
  | cls (cs : List Char)
  | ws0
deriving DecidableEq

/-- Sequential matcher for a token pattern, returning the match length. -/
def matchToks : List Tok → List Char → Option Nat
  | [], _ => some 0
  | Tok.lit c :: ts, x :: xs => if x = c then (matchToks ts xs).map (· + 1) else none
  | Tok.lit _ :: _, [] => none
  | Tok.cls cs :: ts, x :: xs => if cs.contains x then (matchToks ts xs).map (· + 1) else none
  | Tok.cls _ :: _, [] => none
  | Tok.ws0 :: ts, xs =>
    let w := (xs.takeWhile pySpace).length
    (matchToks ts (xs.drop w)).map (· + w)

/-- Spans of `re.finditer` for a token pattern. -/
def tokSpans (p : List Tok) : Nat → List Char → Nat → List (Nat × Nat)
  | 0, _, _ => []
  | _, [], _ => []
  | f + 1, c :: cs, i =>
    match matchToks p (c :: cs) with
    | some (n + 1) => (i, i + n + 1) :: tokSpans p f (List.drop n cs) (i + n + 1)
    | _ => tokSpans p f cs (i + 1)

/-- Token form of `C\s*=\s*S[_0]N\(d[_1]\)\s*-\s*Ke\^{-rT}N\(d[_2]\)`. -/
def blackScholesToks : List Tok :=
  [Tok.lit 'C', Tok.ws0, Tok.lit '=', Tok.ws0, Tok.lit 'S', Tok.cls ['_', '0'],
   Tok.lit 'N', Tok.lit '(', Tok.lit 'd', Tok.cls ['_', '1'], Tok.lit ')',
   Tok.ws0, Tok.lit '-', Tok.ws0, Tok.lit 'K', Tok.lit 'e', Tok.lit '^',
   Tok.lit '{', Tok.lit '-', Tok.lit 'r', Tok.lit 'T', Tok.lit '}',
   Tok.lit 'N', Tok.lit '(', Tok.lit 'd', Tok.cls ['_', '2'], Tok.lit ')']

/-- Token form of the `d1_d2` pattern
`d[_1]\s*=\s*\([ln|log]\(S[_0]/K\)\s*[+]\s*\(r\s*[+]\s*[σσ]\^2/2\)T\)/\([σσ]\s*sqrt\{T\}\)`. -/
def d1d2Toks : List Tok :=
  [Tok.lit 'd', Tok.cls ['_', '1'], Tok.ws0, Tok.lit '=', Tok.ws0, Tok.lit '(',
   Tok.cls ['l', 'n', '|', 'o', 'g'], Tok.lit '(', Tok.lit 'S', Tok.cls ['_', '0'],
   Tok.lit '/', Tok.lit 'K', Tok.lit ')', Tok.ws0, Tok.lit '+', Tok.ws0,
   Tok.lit '(', Tok.lit 'r', Tok.ws0, Tok.lit '+', Tok.ws0, Tok.lit 'σ',
   Tok.lit '^', Tok.lit '2', Tok.lit '/', Tok.lit '2', Tok.lit ')', Tok.lit 'T',
   Tok.lit ')', Tok.lit '/', Tok.lit '(', Tok.lit 'σ', Tok.ws0, Tok.lit 's',
   Tok.lit 'q', Tok.lit 'r', Tok.lit 't', Tok.lit '{', Tok.lit 'T', Tok.lit '}',
   Tok.lit ')']

/-- Token form of the `ito_lemma` pattern
`dX[_t]\s*=\s*[μμ]\(X[_t],t\)dt\s*[+]\s*[σσ]\(X[_t],t\)dW[_t]`. -/
def itoToks : List Tok :=
  [Tok.lit 'd', Tok.lit 'X', Tok.cls ['_', 't'], Tok.ws0, Tok.lit '=', Tok.ws0,
   Tok.lit 'μ', Tok.lit '(', Tok.lit 'X', Tok.cls ['_', 't'], Tok.lit ',',
   Tok.lit 't', Tok.lit ')', Tok.lit 'd', Tok.lit 't', Tok.ws0, Tok.lit '+',
   Tok.ws0, Tok.lit 'σ', Tok.lit '(', Tok.lit 'X', Tok.cls ['_', 't'],
   Tok.lit ',', Tok.lit 't', Tok.lit ')', Tok.lit 'd', Tok.lit 'W',
   Tok.cls ['_', 't']]

/-- Embedding of `PDFCleaner.second_pass_clean`: space adjustment around
mathematical symbols, inline equations, LaTeX environments and the three
formula patterns (each against the text current at its `finditer` call,
with the stale spans that the source then applies), followed by
whitespace collapsing and `str.strip()`. -/
def second_pass_clean (text : List Char) : List Char :=
  let t1 := adjustSpans (classSpansAux mathSymbolClass text 0) text
  let t2 := adjustSpans (eqSpans t1.length t1 0) t1
  let t3 := adjustSpans (latexSpans t2.length t2 0) t2
  let t4 := adjustSpans (tokSpans blackScholesToks t3.length t3 0) t3
  let t5 := adjustSpans (tokSpans d1d2Toks t4.length t4 0) t4
  let t6 := adjustSpans (tokSpans itoToks t5.length t5 0) t5
  pyStrip (squashWs t6)

/-- Embedding of `PDFCleaner.clean_text`: both passes in order (the
`except` arm returning `""` is dead, as neither pass can fail). -/
def clean_text (text : List Char) : List Char :=
  second_pass_clean (first_pass_clean text)

/-! ## Chunking

The text splitter the source configures
(`RecursiveCharacterTextSplitter(chunk_size=400, chunk_overlap=50)` in
`PDFCleaner.__init__`) is third-party library code that is not part of
this repository, so the chunker is modelled from the specification. -/

/-- Modelled from the spec: the repository delegates
`PDFCleaner.split_into_chunks` to LangChain, whose splitter source is
not under this repository.  Following spec section 4.3, the text is cut
greedily into spans of at most `maxLen` characters and each chunk after
the first repeats the trailing `overlap` characters of its predecessor;
the caller passes `sm1` such that `sm1 + 1 = maxLen - overlap` is the
stride.  Fuel is the text length, which a positive stride never
exhausts. -/
def splitGo (maxLen sm1 : Nat) : Nat → List Char → List (List Char)
  | 0, t => [t]
  | f + 1, t =>
    if t.length ≤ maxLen then [t]
    else t.take maxLen :: splitGo maxLen sm1 f (t.drop (sm1 + 1))

/-- Modelled from the spec: `split(text, max_len, overlap)` of spec
section 4.3, with `overlap < max_len` required by the contract. -/
def split_text (maxLen overlap : Nat) (t : List Char) : List (List Char) :=
  splitGo maxLen (maxLen - overlap - 1) t.length t

/-- Embedding of `PDFCleaner.split_into_chunks` with the configured
`chunk_size=400`, `chunk_overlap=50`. -/
def split_into_chunks (t : List Char) : List (List Char) :=
  split_text 400 50 t

/-- De-overlapped concatenation: the first chunk whole, every later
chunk with its leading `overlap` characters (repeated from its
predecessor) removed. -/
def deOverlap (overlap : Nat) : List (List Char) → List Char
  | [] => []
  | c :: cs => c ++ (cs.map (List.drop overlap)).flatten

/-! ## The classifier tables of `PDFCleaner.__init__`

A strategy pattern `(?:w1\s+w2|...)` is embedded as its list of
alternatives, each alternative a list of words separated by `\s+`. -/

def strategy_patterns : List (String × List (List String)) :=
  [("fundamental",
    [["value", "investing"], ["growth", "investing"], ["dividend", "growth"],
     ["quality", "factor"], ["momentum", "factor"], ["low", "volatility"],
     ["high", "yield"], ["defensive"], ["cyclical"], ["sector", "rotation"]]),
   ("technical",
    [["trend", "following"], ["mean", "reversion"], ["breakout", "trading"],
     ["swing", "trading"], ["scalping"], ["day", "trading"],
     ["position", "trading"], ["range", "trading"]]),
   ("quantitative",
    [["factor", "investing"], ["statistical", "arbitrage"], ["pairs", "trading"],
     ["market", "neutral"], ["long", "short"], ["smart", "beta"],
     ["risk", "premia"], ["alpha", "generation"]]),
   ("options_basic",
    [["covered", "call"], ["protective", "put"], ["buy", "write"],
     ["married", "put"], ["collar"], ["synthetic", "stock"],
     ["protective", "collar"], ["delta", "neutral"]]),
   ("options_spread",
    [["vertical", "spread"], ["calendar", "spread"], ["diagonal", "spread"],
     ["iron", "condor"], ["iron", "butterfly"], ["jade", "lizard"],
     ["broken", "wing", "butterfly"], ["theta", "positive"]]),
   ("options_volatility",
    [["straddle"], ["strangle"], ["ratio", "spread"], ["backspreads"],
     ["calendar", "ratio"], ["double", "calendar"],
     ["volatility", "arbitrage"], ["vega", "trading"]]),
   ("portfolio_management",
    [["asset", "allocation"], ["portfolio", "optimization"], ["risk", "parity"],
     ["tactical", "allocation"], ["strategic", "allocation"], ["rebalancing"],
     ["factor", "allocation"], ["correlation", "matrix"]]),
   ("risk_management",
    [["position", "sizing"], ["stop", "loss"], ["take", "profit"],
     ["trailing", "stop"], ["risk", "reward", "ratio"], ["portfolio", "hedging"],
     ["delta", "hedging"], ["gamma", "hedging"], ["beta", "hedging"]]),
   ("market_microstructure",
    [["order", "flow"], ["market", "making"], ["liquidity", "analysis"],
     ["tick", "data"], ["bid", "ask", "spread"], ["order", "book"],
     ["depth", "analysis"], ["market", "impact"]]),
   ("quant_methods",
    [["time", "series", "analysis"], ["stochastic", "calculus"],
     ["brownian", "motion"], ["monte", "carlo", "simulation"],
     ["numerical", "methods"], ["optimization"], ["machine", "learning"],
     ["kalman", "filter"]]),
   ("derivatives_math",
    [["black", "scholes"], ["binomial", "model"], ["trinomial", "tree"],
     ["finite", "difference"], ["partial", "differential", "equation"],
     ["ito", "calculus"], ["martingale"], ["wiener", "process"]]),
   ("intermarket",
    [["correlation", "analysis"], ["cross", "asset"], ["relative", "strength"],
     ["intermarket", "analysis"], ["asset", "class", "correlation"],
     ["rotation", "analysis"], ["cointegration"]]),
   ("sentiment",
    [["market", "sentiment"], ["fear", "greed"], ["put", "call", "ratio"],
     ["vix", "analysis"], ["market", "breadth"], ["advance", "decline"],
     ["tick", "index"], ["standard", "deviation"]])]

def technical_indicators : List (String × List String) :=
  [("trend",
    ["Moving Average", "MACD", "Directional Movement", "Parabolic SAR",
     "Trend Lines", "Channels", "Fibonacci", "Ichimoku Cloud",
     "Linear Regression", "Exponential Moving Average"]),
   ("momentum",
    ["RSI", "Stochastic", "CCI", "Williams %R", "Rate of Change",
     "Momentum", "Relative Vigor Index", "Ultimate Oscillator",
     "Stochastic RSI", "Fisher Transform"]),
   ("volume",
    ["On-Balance Volume", "Volume Profile", "Money Flow Index",
     "Accumulation/Distribution", "Volume RSI", "Chaikin Money Flow",
     "Volume Weighted Average Price", "Negative Volume Index"]),
   ("volatility",
    ["Bollinger Bands", "ATR", "Keltner Channels", "Standard Deviation",
     "Volatility Index", "Historical Volatility", "Normalized ATR",
     "Chaikin Volatility", "Volatility Ratio", "Volatility Stop"]),
   ("oscillators",
    ["Detrended Price Oscillator", "Percentage Price Oscillator",
     "Chande Momentum Oscillator", "Aroon Oscillator", "True Strength Index"])]

def math_terms : List (String × List String) :=
  [("calculus",
    ["derivative", "integral", "differential", "gradient", "partial derivative",
     "limit", "continuity", "convergence", "taylor series", "fourier series",
     "laplace transform", "complex analysis", "contour integral", "residue",
     "cauchy-riemann", "analytic function", "harmonic function", "conformal mapping",
     "vector calculus", "divergence", "curl", "line integral", "surface integral",
     "volume integral", "green theorem", "stokes theorem", "divergence theorem",
     "jacobian", "hessian", "tensor", "manifold", "differential form"]),
   ("algebra",
    ["group", "ring", "field", "vector space", "linear transformation",
     "matrix", "determinant", "eigenvalue", "eigenvector", "basis",
     "dimension", "rank", "nullity", "orthogonal", "orthonormal",
     "inner product", "outer product", "tensor product", "direct sum",
     "quotient space", "isomorphism", "homomorphism", "kernel", "image",
     "polynomial", "root", "factor", "gcd", "lcm", "modulo", "congruence"]),
   ("probability",
    ["probability", "distribution", "random variable", "expected value",
     "variance", "standard deviation", "correlation", "covariance",
     "normal distribution", "poisson", "binomial", "monte carlo",
     "markov chain", "stochastic process", "brownian motion", "martingale",
     "ito process", "stochastic differential equation", "fokker-planck",
     "kolmogorov equation", "ergodic", "stationary", "autocorrelation",
     "spectral density", "power spectrum", "fourier transform"])]

def financial_terms : List (String × List String) :=
  [("greeks",
    ["delta", "gamma", "theta", "vega", "rho", "vanna", "volga",
     "charm", "speed", "color", "zomma", "ultima", "vomma",
     "delta-gamma", "delta-vega", "gamma-vega", "cross-gamma"]),
   ("risk_metrics",
    ["alpha", "beta", "sharpe ratio", "sortino ratio", "information ratio",
     "maximum drawdown", "value at risk", "volatility", "correlation",
     "r-squared", "tracking error", "jensen alpha", "treynor ratio",
     "calmar ratio", "omega ratio", "ulcer index", "kurtosis", "skewness"]),
   ("valuation_metrics",
    ["present value", "future value", "npv", "irr", "yield",
     "duration", "convexity", "forward rate", "spot rate", "yield curve",
     "term structure", "discount factor", "annuity", "perpetuity",
     "modified duration", "key rate duration", "option adjusted spread",
     "zero coupon", "par yield", "bootstrapping"])]

/-! ## `PDFCleaner.analyze_trading_strategies` -/

/-- Match of one regex alternative (words separated by `\s+`) at the
head of the already lowercased text. -/
def phraseAt : List (List Char) → List Char → Bool
  | [], _ => true
  | [w], t => w.isPrefixOf t
  | w :: w2 :: ws, t =>
    if w.isPrefixOf t then
      let r := t.drop w.length
      let k := (r.takeWhile pySpace).length
      if k = 0 then false else phraseAt (w2 :: ws) (r.drop k)
    else false

def anySuffix (p : List Char → Bool) : List Char → Bool
  | [] => p []
  | c :: cs => p (c :: cs) || anySuffix p cs

/-- Embedding of `re.search(pattern, text, re.IGNORECASE)` for a
strategy pattern: some alternative matches at some position of the
lowercased text (the pattern words are already lowercase). -/
def regexSearchCI (alts : List (List String)) (text : List Char) : Bool :=
  anySuffix (fun s => alts.any (fun alt => phraseAt (alt.map String.data) s))
    (lowerList text)

/-- Embedding of the Python substring test `needle in hay`. -/
def containsSub (needle hay : List Char) : Bool :=
  anySuffix (fun s => needle.isPrefixOf s) hay

/-- Result dictionary of `analyze_trading_strategies`.  The three
collections are built as sets in the source; they are embedded as
deduplicated lists in insertion order, to which the set-iteration-order
parameter of `analyze_trading_strategies` is then applied. -/
structure StrategyResults where
  fundamental_analysis : Bool
  technical_analysis : Bool
  quantitative_methods : Bool
  options_strategies : Bool
  portfolio_management : Bool
  risk_management : Bool
  mathematical_trading : Bool
  market_analysis : Bool
  detected_patterns : List String
  detected_indicators : List String
  mathematical_concepts : List String
deriving DecidableEq

def emptyResults : StrategyResults :=
  { fundamental_analysis := false, technical_analysis := false,
    quantitative_methods := false, options_strategies := false,
    portfolio_management := false, risk_management := false,
    mathematical_trading := false, market_analysis := false,
    detected_patterns := [], detected_indicators := [],
    mathematical_concepts := [] }

/-- Addition to a Python `set`, embedded on insertion-ordered
deduplicated lists. -/
def addToSet (l : List String) (x : String) : List String :=
  if l.contains x then l else l ++ [x]

/-- Python `str.startswith`, embedded on the character lists. -/
def strStartsWith (s pre : String) : Bool :=
  pre.data.isPrefixOf s.data

/-- The `elif` chain that maps a matched category to a flag.  Note that
`quant_methods` is caught by the earlier `startswith("quant")` branch
and `market_microstructure` by no branch at all, exactly as in the
source. -/
def applyCategory (r : StrategyResults) (cat : String) : StrategyResults :=
  if strStartsWith cat "fundamental" then { r with fundamental_analysis := true }
  else if strStartsWith cat "technical" then { r with technical_analysis := true }
  else if strStartsWith cat "quant" then { r with quantitative_methods := true }
  else if strStartsWith cat "options" then { r with options_strategies := true }
  else if strStartsWith cat "portfolio" then { r with portfolio_management := true }
  else if strStartsWith cat "risk" then { r with risk_management := true }
  else if cat = "quant_methods" || cat = "derivatives_math" then
    { r with mathematical_trading := true }
  else if cat = "intermarket" || cat = "sentiment" then
    { r with market_analysis := true }
  else r

/-- Core of `analyze_trading_strategies`: the four table loops in source
order, with the collections in insertion order. -/
def analyzeCore (text : List Char) : StrategyResults :=
  let lt := lowerList text
  let r1 := strategy_patterns.foldl
    (fun r entry =>
      if regexSearchCI entry.2 text then
        applyCategory { r with detected_patterns := addToSet r.detected_patterns entry.1 } entry.1
      else r)
    emptyResults
  let r2 := technical_indicators.foldl
    (fun r cat => cat.2.foldl
      (fun r ind =>
        if containsSub (lowerList ind.data) lt then
          { r with technical_analysis := true,
                   detected_indicators := addToSet r.detected_indicators (cat.1 ++ ":" ++ ind) }
        else r)
      r)
    r1
  let r3 := math_terms.foldl
    (fun r dom => dom.2.foldl
      (fun r term =>
        if containsSub (lowerList term.data) lt then
          { r with mathematical_concepts := addToSet r.mathematical_concepts (dom.1 ++ ":" ++ term) }
        else r)
      r)
    r2
  financial_terms.foldl
    (fun r cat => cat.2.foldl
      (fun r term =>
        if containsSub (lowerList term.data) lt then
          { r with mathematical_concepts := addToSet r.mathematical_concepts ("finance:" ++ term) }
        else r)
      r)
    r3

/-- Embedding of `PDFCleaner.analyze_trading_strategies`.  The final
`list(set(...))` conversions enumerate each CPython set in an order
determined by the salted string hashes of its elements, which varies
between interpreter runs; that order is the parameter `so`, constrained
to permutations wherever a property depends on it. -/
def analyze_trading_strategies (so : List String → List String) (text : List Char) :
    StrategyResults :=
  let core := analyzeCore text
  { core with
    detected_patterns := so core.detected_patterns,
    detected_indicators := so core.detected_indicators,
    mathematical_concepts := so core.mathematical_concepts }

/-- Python truthiness of `any(strategy_info.values())`: some flag is
true or some collection is nonempty. -/
def anyTruthy (r : StrategyResults) : Bool :=
  r.fundamental_analysis || r.technical_analysis || r.quantitative_methods ||
  r.options_strategies || r.portfolio_management || r.risk_management ||
  r.mathematical_trading || r.market_analysis ||
  !r.detected_patterns.isEmpty || !r.detected_indicators.isEmpty ||
  !r.mathematical_concepts.isEmpty

/-- Embedding of `PDFCleaner.has_trading_strategy` (the `except` arm
returning `False` is dead, as the embedded analysis cannot fail). -/
def has_trading_strategy (so : List String → List String) (text : List Char) : Bool :=
  anyTruthy (analyze_trading_strategies so text)

/-! ## Embedding clients

An external embedding call either yields an HTTP response with a status
and a parsed `embedding` field, or raises (network error, timeout).
Vector components are embedded as rationals: the pipelines never
compute with them, they only move them. -/

inductive EmbedOutcome where
  | response (status : Nat) (body : List ℚ)
  | exn
deriving DecidableEq

/-- Configured dimension of `PDFCleaner` (`self.embedding_dim = 768`). -/
def embedding_dim : Nat := 768

/-- Retry maximum of `PDFCleaner.get_ollama_embedding` (`max_retries = 3`). -/
def max_retries : Nat := 3

/-- The attempt loop of `PDFCleaner.get_ollama_embedding`: a 200
response is accepted only when the embedding is nonempty and has the
configured dimension, and returns `[]` immediately otherwise; any other
status or an exception moves to the next attempt; exhausting the
attempts returns `[]`.  `resp` gives the outcome of each attempt. -/
def ollamaLoop (resp : Nat → EmbedOutcome) : Nat → Nat → List ℚ
  | 0, _ => []
  | rem + 1, attempt =>
    match resp attempt with
    | EmbedOutcome.response s body =>
      if s = 200 then
        if !body.isEmpty && (body.length == embedding_dim) then body else []
      else ollamaLoop resp rem (attempt + 1)
    | EmbedOutcome.exn => ollamaLoop resp rem (attempt + 1)

/-- Embedding of `PDFCleaner.get_ollama_embedding`; the returned `[]`
is the EmbeddingUnavailable failure value of the source. -/
def get_ollama_embedding (resp : Nat → EmbedOutcome) : List ℚ :=
  ollamaLoop resp max_retries 0

/-- Embedding of `MarketVectorStore._get_embedding` of
`vector_store.py`: a 200 response is returned as is, with no length
validation; any other status, and any exception, yields the fallback
zero vector of length 2048. -/
def vs_get_embedding (r : EmbedOutcome) : List ℚ :=
  match r with
  | EmbedOutcome.response s body =>
    if s = 200 then body else List.replicate 2048 0
  | EmbedOutcome.exn => List.replicate 2048 0

/-! ## `MarketVectorStore.search_similar_market_conditions` -/

structure QueryMatch where
  vid : String
  score : ℚ
deriving DecidableEq

/-- Arguments of an issued `index.query` call. -/
structure QueryCall where
  vector : List ℚ
  top_k : Nat
  filter : Option String
deriving DecidableEq

/-- Environment of one search: whether the lazily created index handle
is available after `_ensure_pinecone_initialized` (it is `None` when
creation failed, listing timed out, or the index does not exist), the
outcome of the embedding request, and the outcome of the query call
(`Except.error` embeds a raised exception). -/
structure SearchEnv where
  indexAvailable : Bool
  embedResp : EmbedOutcome
  queryOutcome : Except Unit (List QueryMatch)

/-- Embedding of `MarketVectorStore.search_similar_market_conditions`:
the result list, paired with the `index.query` call that was issued, if
any.  The surrounding `try/except` turns a failing query into `[]`. -/
def search_similar_market_conditions (env : SearchEnv) (symbol : String) (top_k : Nat) :
    List QueryMatch × Option QueryCall :=
  if env.indexAvailable = false then ([], none)
  else
    let qv := vs_get_embedding env.embedResp
    let call : QueryCall :=
      { vector := qv, top_k := top_k,
        filter := if symbol ≠ "general" then some symbol else none }
    match env.queryOutcome with
    | Except.ok ms => (ms, some call)
    | Except.error _ => ([], some call)

/-! ## `PDFCleaner.process_pdf` and `PDFCleaner.process_pdfs` -/

/-- Record upserted to the index, with the metadata of the source. -/
structure VectorRec where
  vid : String
  values : List ℚ
  mtext : String
  msource : String
  mpage : Nat
  mchunk : Nat
deriving DecidableEq

/-- Chunks of all pages, tagged with page number and chunk index: the
first accumulation loop of `process_pdf` (pages whose cleaned text is
empty, or which produce no chunks, are skipped). -/
def pageChunks (pages : List (List Char)) : List (Nat × Nat × List Char) :=
  (pages.enum).foldl
    (fun acc pp =>
      let cleaned := clean_text pp.2
      if cleaned.isEmpty then acc
      else
        let cks := split_into_chunks cleaned
        if cks.isEmpty then acc
        else acc ++ cks.enum.map (fun ic => (pp.1, ic.1, ic.2)))
    []

/-- Split into batches of `n` (the `MAX_BATCH_SIZE = 20` batching of
`process_pdf`); fuel is the list length. -/
def batchesGo (n : Nat) : Nat → List α → List (List α)
  | 0, _ => []
  | _, [] => []
  | f + 1, l => l.take n :: batchesGo n f (l.drop n)

def batches (n : Nat) (l : List α) : List (List α) :=
  batchesGo n l.length l

/-- Body of the embedding loop of `process_pdf` for one chunk (indexed
globally by `gc.1`, with page number and chunk index in `gc.2`): embed
with retries and build the upserted record, or skip the chunk when the
embedding came back empty. -/
def chunkVector (embedEnv : Nat → Nat → EmbedOutcome) (pdfName : String)
    (gc : Nat × Nat × Nat × List Char) : Option VectorRec :=
  let emb := get_ollama_embedding (embedEnv gc.1)
  if emb.isEmpty then none
  else some
    { vid := pdfName ++ "_p" ++ toString gc.2.1 ++ "_c" ++ toString gc.2.2.1,
      values := emb,
      mtext := String.mk gc.2.2.2,
      msource := pdfName,
      mpage := gc.2.1 + 1,
      mchunk := gc.2.2.1 }

/-- Batch loop of `process_pdf`: each batch of chunks is embedded and,
when at least one vector was produced, handed to `index.upsert`. -/
def upsertFold (embedEnv : Nat → Nat → EmbedOutcome) (pdfName : String)
    (bs : List (List (Nat × Nat × Nat × List Char))) : List (List VectorRec) :=
  bs.foldl
    (fun acc b =>
      let vecs := b.filterMap (chunkVector embedEnv pdfName)
      if vecs.isEmpty then acc else acc ++ [vecs])
    []

/-- Embedding of `PDFCleaner.process_pdf`.  `embedEnv` gives, for the
i-th chunk of the document (in processing order) and each retry
attempt, the outcome of the embedding request.  Returns the source
return value, the `processed_chunks` and `total_chunks` counters, and
the list of batches handed to `index.upsert` (a batch whose upsert call
raises is logged and skipped without affecting any of these, so upsert
outcomes are not part of the environment). -/
def process_pdf (embedEnv : Nat → Nat → EmbedOutcome) (pdfName : String)
    (pages : List (List Char)) : Bool × Nat × Nat × List (List VectorRec) :=
  if pages.isEmpty then (false, 0, 0, [])
  else
    let allChunks := pageChunks pages
    let upserts := upsertFold embedEnv pdfName (batches 20 allChunks.enum)
    (true, (upserts.map List.length).sum, allChunks.length, upserts)

/-- Report returned by `process_pdfs`: the dictionary it builds, with
the two `describe_index_stats` snapshots reduced to their vector
counts. -/
structure PdfReport where
  total_pdfs : Nat
  successful_pdfs : Nat
  failed_pdfs : Nat
  total_chunks : Nat
  initial_vector_count : Nat
  final_vector_count : Nat
deriving DecidableEq

/-- Embedding of `PDFCleaner.process_pdfs` over a directory listing of
already extracted documents (name and page texts); `embedEnvOf i` is
the embedding environment of the i-th document.  A document with no
pages or no chunks, or whose `process_pdf` returns `False`, is counted
failed; `total_chunks` accumulates the chunks of processed documents
exactly as the source does before calling `process_pdf`. -/
def process_pdfs (embedEnvOf : Nat → Nat → Nat → EmbedOutcome)
    (statsBefore statsAfter : Nat) (pdfs : List (String × List (List Char))) :
    PdfReport :=
  let step := fun (acc : Nat × Nat × Nat) (pi : Nat × String × List (List Char)) =>
    if pi.2.2.isEmpty then (acc.1, acc.2.1, acc.2.2 + 1)
    else
      let allChunks := pageChunks pi.2.2
      if allChunks.isEmpty then (acc.1, acc.2.1, acc.2.2 + 1)
      else if (process_pdf (embedEnvOf pi.1) pi.2.1 pi.2.2).1 then
        (acc.1 + allChunks.length, acc.2.1 + 1, acc.2.2)
      else (acc.1 + allChunks.length, acc.2.1, acc.2.2 + 1)
  let tsf := (pdfs.enum).foldl step (0, 0, 0)
  { total_pdfs := pdfs.length, successful_pdfs := tsf.2.1,
    failed_pdfs := tsf.2.2, total_chunks := tsf.1,
    initial_vector_count := statsBefore, final_vector_count := statsAfter }

/-! ## `FinancialDataVectorizer` of `data_vectorizer.py`

The property of interest is which vector-index operations are issued on
which execution path of `process_ticker_data` and `main`, so the
pipeline is embedded as a trace semantics: running it under an
environment that fixes the outcome of every external call yields the
ordered list of vector-index operations that were issued (an operation
whose call raises is still issued, hence still in the trace) together
with the success of the run.  The tenacity `@retry` decorators repeat a
failing call unchanged, so they alter neither which operations appear
in the trace nor the eventual outcome and are not modelled beyond
that. -/

inductive VOp where
  | upsertB (n : Nat)
  | statsOp
  | deleteF (symbol : String)
deriving DecidableEq

/-- One option contract as consumed by `process_options_data`; fields
are kept as the strings interpolated into the description. -/
structure Contract where
  underlying_symbol : String
  expiration_date : String
  ctype : String
  strike_price : String
  open_interest : String
  close_price : String
  status : String
deriving DecidableEq

def upperString (s : String) : String :=
  String.mk (s.data.map Char.toUpper)

/-- Embedding of `FinancialDataVectorizer.process_options_data`. -/
def process_options_data (contracts : List Contract) : List String :=
  contracts.map (fun c =>
    "Option contract for " ++ c.underlying_symbol ++
    " expiring on " ++ c.expiration_date ++ ", " ++
    upperString c.ctype ++ " option with strike price $" ++ c.strike_price ++
    ". Open interest: " ++ c.open_interest ++
    ", Last close price: $" ++ c.close_price ++
    ". Contract status: " ++ c.status ++ ".")

/-- Upsert loop of `vectorize_options`: batches are sent in order; a
raising batch aborts the function (after its fruitless retries), so the
trace holds the issued upserts up to and including the failing one. -/
def upsertOps (bs : List (List (List ℚ))) (failAt : Option Nat) : List VOp × Bool :=
  match failAt with
  | none => (bs.map (fun b => VOp.upsertB b.length), true)
  | some k =>
    if k < bs.length then
      ((bs.take (k + 1)).map (fun b => VOp.upsertB b.length), false)
    else (bs.map (fun b => VOp.upsertB b.length), true)

/-- Environment of one realtime-vectorization run: outcomes of
`ensure_index_exists`, `fetch_all_contracts`, the fetched contracts,
the sentence-transformer encoding, the first failing upsert batch (if
any), `describe_index_stats`, the raw-data file write, and
`index.delete`. -/
structure RtEnv where
  ensureOk : Bool
  fetchOk : Bool
  contracts : List Contract
  encode : String → List ℚ
  upsertFailAt : Option Nat
  statsOk : Bool
  saveOk : Bool
  deleteOk : Bool

/-- Batch size default of the vectorizer (`VECTOR_BATCH_SIZE`, "50"). -/
def rt_batch_size : Nat := 50

/-- Embedding of `FinancialDataVectorizer.process_ticker_data` as a
trace: ensure the index, fetch the contracts, cap them at 300, build
descriptions, encode and upsert them in batches, read the index stats,
save the raw data, then `cleanup_vectors(symbol)`; the first failing
step raises, which the enclosing `except` re-raises after logging. -/
def process_ticker_data (env : RtEnv) (symbol : String) : List VOp × Bool :=
  if env.ensureOk = false then ([], false)
  else if env.fetchOk = false then ([], false)
  else
    let contracts :=
      if env.contracts.length > 300 then env.contracts.take 300 else env.contracts
    let descriptions := process_options_data contracts
    let vectors := descriptions.map env.encode
    let ou := upsertOps (batches rt_batch_size vectors) env.upsertFailAt
    if ou.2 = false then (ou.1, false)
    else
      let ops2 := ou.1 ++ [VOp.statsOp]
      if env.statsOk = false then (ops2, false)
      else if env.saveOk = false then (ops2, false)
      else (ops2 ++ [VOp.deleteF symbol], env.deleteOk)

/-- Embedding of `main` of `data_vectorizer.py`: run the pipeline for
the entered symbol; on any error, call `cleanup_vectors(symbol)` from
the `except` arm and re-raise. -/
def rt_main (env : RtEnv) (symbol : String) : List VOp × Bool :=
  let pr := process_ticker_data env symbol
  if pr.2 then pr else (pr.1 ++ [VOp.deleteF symbol], false)

/-! ## Concrete inputs used by the scenario properties -/

/-- Scenario text of the classifier property. -/
def ironCondorText : List Char :=
  "Iron Condor: sell 1 OTM call spread, sell 1 OTM put spread, delta neutral, positive theta".data

/-- Text whose only classifier hit is the probability term `variance`. -/
def varianceText : List Char :=
  "variance".data

/-- One-page document used by the ingestion scenarios. -/
def helloPage : List Char :=
  "hello world".data

/-- Embedding environment in which every request yields HTTP 500 with
an empty body (the repeated-500 scenario). -/
def all500 : Nat → EmbedOutcome :=
  fun _ => EmbedOutcome.response 500 []

/-! ## Helper lemmas -/

/-- Whatever the responses, the attempt loop either fails with `[]` or
returns a vector of exactly the configured dimension. -/
theorem ollamaLoop_nil_or_dim (resp : Nat → EmbedOutcome) :
    ∀ n a, ollamaLoop resp n a = [] ∨ (ollamaLoop resp n a).length = embedding_dim := by
  intro n
  induction n with
  | zero => intro a; exact Or.inl rfl
  | succ m ih =>
    intro a
    unfold ollamaLoop
    cases resp a with
    | response s body =>
      dsimp only
      by_cases hs : s = 200
      · rw [if_pos hs]
        by_cases hb : (!body.isEmpty && (body.length == embedding_dim)) = true
        · rw [if_pos hb]
          exact Or.inr (by simpa using ((Bool.and_eq_true _ _).mp hb).right)
        · rw [if_neg hb]
          exact Or.inl rfl
      · rw [if_neg hs]
        exact ih (a + 1)
    | exn =>
      dsimp only
      exact ih (a + 1)

/-- If every attempt yields a non-200 response, the loop returns `[]`. -/
theorem ollamaLoop_non200_nil (resp : Nat → EmbedOutcome)
    (hresp : ∀ a, ∃ s body, resp a = EmbedOutcome.response s body ∧ s ≠ 200) :
    ∀ n a, ollamaLoop resp n a = [] := by
  intro n
  induction n with
  | zero => intro a; rfl
  | succ m ih =>
    intro a
    obtain ⟨s, body, hr, hs⟩ := hresp a
    unfold ollamaLoop
    rw [hr]
    dsimp only
    rw [if_neg hs]
    exact ih (a + 1)

/-- A vector accepted by `get_ollama_embedding` has the configured
dimension. -/
theorem get_ollama_embedding_dim (resp : Nat → EmbedOutcome)
    (h : get_ollama_embedding resp ≠ []) :
    (get_ollama_embedding resp).length = embedding_dim := by
  rcases ollamaLoop_nil_or_dim resp max_retries 0 with h0 | h0
  · exact absurd h0 h
  · exact h0

theorem filterMap_none {α β : Type} (f : α → Option β) (l : List α)
    (h : ∀ a, f a = none) : l.filterMap f = [] := by
  induction l with
  | nil => rfl
  | cons x xs ih => simp [List.filterMap_cons, h, ih]

/-- In the all-500 environment every chunk is skipped. -/
theorem chunkVector_all500 (pdfName : String) (gc : Nat × Nat × Nat × List Char) :
    chunkVector (fun _ => all500) pdfName gc = none := by
  unfold chunkVector
  have h : get_ollama_embedding (all500) = [] :=
    ollamaLoop_non200_nil all500 (fun a => ⟨500, [], rfl, by decide⟩) max_retries 0
  simp [h]

theorem upsertFold_all500 (pdfName : String)
    (bs : List (List (Nat × Nat × Nat × List Char))) :
    upsertFold (fun _ => all500) pdfName bs = [] := by
  unfold upsertFold
  induction bs with
  | nil => rfl
  | cons b rest ih =>
    rw [List.foldl_cons]
    rw [filterMap_none _ b (chunkVector_all500 pdfName)]
    simpa using ih

/-- Every vector accumulated by the batch loop has the configured
dimension. -/
theorem mem_upsertFold_dim (embedEnv : Nat → Nat → EmbedOutcome) (pdfName : String) :
    ∀ (bs : List (List (Nat × Nat × Nat × List Char))) (acc : List (List VectorRec)),
      (∀ ba ∈ acc, ∀ v ∈ ba, v.values.length = embedding_dim) →
      ∀ ba ∈ bs.foldl
          (fun acc b =>
            let vecs := b.filterMap (chunkVector embedEnv pdfName)
            if vecs.isEmpty then acc else acc ++ [vecs])
          acc,
        ∀ v ∈ ba, v.values.length = embedding_dim := by
  intro bs
  induction bs with
  | nil => intro acc hacc ba hba v hv; exact hacc ba hba v hv
  | cons b rest ih =>
    intro acc hacc ba hba v hv
    rw [List.foldl_cons] at hba
    refine ih _ ?_ ba hba v hv
    intro ba2 hba2 v2 hv2
    dsimp only at hba2
    by_cases he : (b.filterMap (chunkVector embedEnv pdfName)).isEmpty = true
    · rw [if_pos he] at hba2
      exact hacc ba2 hba2 v2 hv2
    · rw [if_neg he] at hba2
      rcases List.mem_append.mp hba2 with hmem | hmem
      · exact hacc ba2 hmem v2 hv2
      · have hba3 : ba2 = b.filterMap (chunkVector embedEnv pdfName) := by
          simpa using hmem
        subst hba3
        obtain ⟨gc, _, hgc⟩ := List.mem_filterMap.mp hv2
        unfold chunkVector at hgc
        by_cases hemb : (get_ollama_embedding (embedEnv gc.1)).isEmpty = true
        · rw [if_pos hemb] at hgc; exact absurd hgc (by simp)
        · rw [if_neg hemb] at hgc
          have hv3 : v2.values = get_ollama_embedding (embedEnv gc.1) := by
            cases hgc; rfl
          rw [hv3]
          exact get_ollama_embedding_dim _ (by
            intro hnil
            exact hemb (by rw [hnil]; rfl))

/-- Two permutation-related lists are empty together. -/
theorem perm_isEmpty {l1 l2 : List String} (h : l1.Perm l2) :
    l1.isEmpty = l2.isEmpty := by
  cases l1 <;> cases l2 <;> simp_all

/-- Dropping the overlap from every chunk and flattening recovers the
text behind the overlap. -/
theorem deOverlap_cons (ov : Nat) (c : List Char) (cs : List (List Char)) :
    deOverlap ov (c :: cs) = c ++ (cs.map (List.drop ov)).flatten := rfl

theorem splitGo_flatten_drop (maxLen ov : Nat) (hov : ov < maxLen) :
    ∀ (f : Nat) (t : List Char), t.length ≤ f →
      ((splitGo maxLen (maxLen - ov - 1) f t).map (List.drop ov)).flatten =
        List.drop ov t := by
  intro f
  induction f with
  | zero =>
    intro t ht
    have h0 : t = [] := List.eq_nil_of_length_eq_zero (Nat.le_zero.mp ht)
    subst h0
    simp [splitGo]
  | succ m ih =>
    intro t ht
    unfold splitGo
    by_cases hlen : t.length ≤ maxLen
    · rw [if_pos hlen]
      simp
    · rw [if_neg hlen]
      have hstep : maxLen - ov - 1 + 1 = maxLen - ov := by omega
      have hrec : (t.drop (maxLen - ov - 1 + 1)).length ≤ m := by
        rw [List.length_drop]
        omega
      rw [List.map_cons, List.flatten_cons, ih _ hrec, hstep]
      rw [List.drop_drop, List.drop_take maxLen ov t]
      have hsum : maxLen - ov + ov = maxLen := by omega
      rw [hsum]
      have hdd : List.drop maxLen t = (t.drop ov).drop (maxLen - ov) := by
        rw [List.drop_drop]
        congr 1
        omega
      rw [hdd, List.take_append_drop]

/-- De-overlapping the chunk list recovers the whole text. -/
theorem deOverlap_splitGo (maxLen ov : Nat) (hov : ov < maxLen) :
    ∀ (f : Nat) (t : List Char), t.length ≤ f →
      deOverlap ov (splitGo maxLen (maxLen - ov - 1) f t) = t := by
  intro f
  induction f with
  | zero =>
    intro t ht
    have h0 : t = [] := List.eq_nil_of_length_eq_zero (Nat.le_zero.mp ht)
    subst h0
    rfl
  | succ m ih =>
    intro t ht
    unfold splitGo
    by_cases hlen : t.length ≤ maxLen
    · rw [if_pos hlen]
      simp [deOverlap]
    · rw [if_neg hlen]
      have hstep : maxLen - ov - 1 + 1 = maxLen - ov := by omega
      have hrec : (t.drop (maxLen - ov - 1 + 1)).length ≤ m := by
        rw [List.length_drop]
        omega
      rw [deOverlap_cons]
      rw [splitGo_flatten_drop maxLen ov hov m _ hrec, hstep]
      rw [List.drop_drop]
      have hsum : maxLen - ov + ov = maxLen := by omega
      rw [hsum, List.take_append_drop]

/-- On every success path of `process_ticker_data` the trace ends with
the delete of the vectors of the processed symbol. -/
theorem process_ticker_success_last (env : RtEnv) (symbol : String)
    (h : (process_ticker_data env symbol).2 = true) :
    (process_ticker_data env symbol).1.getLast? = some (VOp.deleteF symbol) := by
  rcases env with ⟨eOk, fOk, cs, enc, uFail, sOk, svOk, dOk⟩
  unfold process_ticker_data at h ⊢
  cases eOk with
  | false => simp at h
  | true =>
    rw [if_neg (by simp)] at h ⊢
    cases fOk with
    | false => simp at h
    | true =>
      rw [if_neg (by simp)] at h ⊢
      dsimp only at h ⊢
      by_cases hu :
          (upsertOps
            (batches rt_batch_size
              ((process_options_data (if cs.length > 300 then cs.take 300 else cs)).map enc))
            uFail).2 = false
      · rw [if_pos hu] at h
        simp at h
      · rw [if_neg hu] at h ⊢
        cases sOk with
        | false => simp at h
        | true =>
          rw [if_neg (by simp)] at h ⊢
          cases svOk with
          | false => simp at h
          | true =>
            rw [if_neg (by simp)] at h ⊢
            exact List.getLast?_concat _

/-! ## The verified claims -/

/-- C1 (counterexample).  On the query-side embedding path the claim
fails: `_get_embedding` accepts a 200 response whose vector has length
3 (not the configured dimension 768) and
`search_similar_market_conditions` passes that vector on to
`index.query` instead of rejecting it. -/
theorem C1_counterexample :
    vs_get_embedding (EmbedOutcome.response 200 [1, 2, 3]) = [1, 2, 3] ∧
    (vs_get_embedding (EmbedOutcome.response 200 [1, 2, 3])).length = 3 ∧
    ¬ (vs_get_embedding (EmbedOutcome.response 200 [1, 2, 3])).length = embedding_dim ∧
    (search_similar_market_conditions
        ⟨true, EmbedOutcome.response 200 [1, 2, 3], Except.ok []⟩ "AAPL" 5).2 =
      some ⟨[1, 2, 3], 5, some "AAPL"⟩ := by
  refine ⟨rfl, rfl, by decide, rfl⟩

/-- C1 (amended).  The dimension check holds on the document-ingestion
path only: an embedding accepted by `get_ollama_embedding` always has
the configured dimension 768, and every vector `process_pdf` hands to
`index.upsert` has that dimension; the query-side `_get_embedding`
performs no length validation — it forwards a 200-response body of any
length unchanged, and `search_similar_market_conditions` queries the
index with whatever vector it got back. -/
theorem C1_dimension_check_amended :
    (∀ resp : Nat → EmbedOutcome, get_ollama_embedding resp ≠ [] →
      (get_ollama_embedding resp).length = embedding_dim) ∧
    (∀ (embedEnv : Nat → Nat → EmbedOutcome) (pdfName : String)
        (pages : List (List Char)) (ba : List VectorRec) (v : VectorRec),
      ba ∈ (process_pdf embedEnv pdfName pages).2.2.2 → v ∈ ba →
      v.values.length = embedding_dim) ∧
    (∀ body : List ℚ, vs_get_embedding (EmbedOutcome.response 200 body) = body) ∧
    (∀ (env : SearchEnv) (symbol : String) (top_k : Nat),
      env.indexAvailable = true →
      (search_similar_market_conditions env symbol top_k).2 =
        some ⟨vs_get_embedding env.embedResp, top_k,
              if symbol ≠ "general" then some symbol else none⟩) := by
  refine ⟨fun resp h => get_ollama_embedding_dim resp h, ?_, fun body => rfl, ?_⟩
  · intro embedEnv pdfName pages ba v hba hv
    unfold process_pdf at hba
    by_cases hp : pages.isEmpty = true
    · rw [if_pos hp] at hba
      simp at hba
    · rw [if_neg hp] at hba
      dsimp only at hba
      unfold upsertFold at hba
      exact mem_upsertFold_dim embedEnv pdfName _ [] (by intro ba2 h2; simp at h2)
        ba hba v hv
  · intro env symbol top_k hAvail
    unfold search_similar_market_conditions
    rw [hAvail]
    rw [if_neg (by simp)]
    dsimp only
    cases env.queryOutcome <;> rfl

/-- C1 (witness). -/
theorem C1_dimension_check_amended_witness :
    (get_ollama_embedding
      (fun _ => EmbedOutcome.response 200 (List.replicate 768 (0 : ℚ)))).length =
        embedding_dim ∧
    (⟨"doc.pdf_p0_c0", List.replicate 768 (0 : ℚ), "hello world", "doc.pdf", 1, 0⟩ :
        VectorRec).values.length = embedding_dim ∧
    vs_get_embedding (EmbedOutcome.response 200 [1, 2, 3]) = [1, 2, 3] ∧
    (search_similar_market_conditions
        ⟨true, EmbedOutcome.response 200 [1, 2, 3], Except.ok []⟩ "AAPL" 5).2 =
      some ⟨vs_get_embedding (EmbedOutcome.response 200 [1, 2, 3]), 5, some "AAPL"⟩ := by
  refine ⟨?_, ?_, C1_dimension_check_amended.2.2.1 [1, 2, 3], ?_⟩
  · exact C1_dimension_check_amended.1 _ (by decide)
  · exact C1_dimension_check_amended.2.1
      (fun _ _ => EmbedOutcome.response 200 (List.replicate 768 (0 : ℚ)))
      "doc.pdf" [helloPage]
      [⟨"doc.pdf_p0_c0", List.replicate 768 (0 : ℚ), "hello world", "doc.pdf", 1, 0⟩]
      ⟨"doc.pdf_p0_c0", List.replicate 768 (0 : ℚ), "hello world", "doc.pdf", 1, 0⟩
      (by decide) (by decide)
  · exact C1_dimension_check_amended.2.2.2 _ "AAPL" 5 rfl

/-- C2 (code bug).  Text normalization is not idempotent: on the input
`aαbβc` one application of `clean_text` yields `a α bβc` — the source
even fails its own stated goal of ensuring spacing around mathematical
symbols, because the second symbol is adjusted with a span computed
before the first insertion shifted the text — and a second application
yields the different text `a α b βc`. -/
theorem C2_clean_text_not_idempotent :
    clean_text "aαbβc".data = "a α bβc".data ∧
    clean_text (clean_text "aαbβc".data) = "a α b βc".data ∧
    clean_text (clean_text "aαbβc".data) ≠ clean_text "aαbβc".data := by
  refine ⟨by decide, by decide, by decide⟩

/-- C3.  For every raw text and every chunking configuration with
`overlap < max_len`, removing each later chunk's leading overlap and
concatenating the chunks reconstructs the cleaned text that was split
(the chunker is modelled from the spec, the library splitter not being
part of the repository). -/
theorem C3_chunks_reconstruct (raw : List Char) (maxLen overlap : Nat)
    (hov : overlap < maxLen) :
    deOverlap overlap (split_text maxLen overlap (clean_text raw)) = clean_text raw :=
  deOverlap_splitGo maxLen overlap hov (clean_text raw).length (clean_text raw)
    (Nat.le_refl _)

/-- C3 (witness). -/
theorem C3_chunks_reconstruct_witness :
    1 < 4 ∧
    deOverlap 1 (split_text 4 1 (clean_text "hello world".data)) =
      clean_text "hello world".data :=
  ⟨by decide, C3_chunks_reconstruct "hello world".data 4 1 (by decide)⟩

/-- C4 (counterexample).  In the three-consecutive-500 scenario the
embedding does come back as the failure value `[]` and the chunk is
skipped, but the returned report carries no failed-chunk count at all:
its only failure field counts documents, stays `0`, and the document
whose single chunk failed is even counted successful. -/
theorem C4_counterexample :
    get_ollama_embedding all500 = [] ∧
    process_pdf (fun _ => all500) "doc.pdf" [helloPage] = (true, 0, 1, []) ∧
    (process_pdfs (fun _ _ => all500) 0 0 [("doc.pdf", [helloPage])]).failed_pdfs = 0 ∧
    ¬ 1 ≤ (process_pdfs (fun _ _ => all500) 0 0 [("doc.pdf", [helloPage])]).failed_pdfs ∧
    (process_pdfs (fun _ _ => all500) 0 0 [("doc.pdf", [helloPage])]).successful_pdfs = 1 := by
  refine ⟨by decide, by decide, by decide, by decide, by decide⟩

/-- C4 (amended).  When every embedding request of a document returns
HTTP 500 and the retry maximum 3 is exhausted, `get_ollama_embedding`
returns the failure value `[]`, every chunk is skipped (nothing is
upserted, `processed_chunks = 0`), the run still completes and returns
a report — but the report counts only documents: the all-failed
document is reported successful and `failed_pdfs` stays `0`; the
failed-chunk count exists only in the log, not in the report. -/
theorem C4_embedding_failure_amended (pdfName : String) (pages : List (List Char))
    (s0 s1 : Nat) (h : pageChunks pages ≠ []) :
    get_ollama_embedding all500 = [] ∧
    process_pdf (fun _ => all500) pdfName pages =
      (true, 0, (pageChunks pages).length, []) ∧
    process_pdfs (fun _ _ => all500) s0 s1 [(pdfName, pages)] =
      { total_pdfs := 1, successful_pdfs := 1, failed_pdfs := 0,
        total_chunks := (pageChunks pages).length,
        initial_vector_count := s0, final_vector_count := s1 } := by
  have hnil : get_ollama_embedding all500 = [] :=
    ollamaLoop_non200_nil all500 (fun a => ⟨500, [], rfl, by decide⟩) max_retries 0
  have hpages : pages.isEmpty = false := by
    cases pages with
    | nil => exact absurd rfl h
    | cons p ps => rfl
  have hpdf : process_pdf (fun _ => all500) pdfName pages =
      (true, 0, (pageChunks pages).length, []) := by
    unfold process_pdf
    rw [hpages]
    dsimp only
    rw [upsertFold_all500]
    rfl
  refine ⟨hnil, hpdf, ?_⟩
  unfold process_pdfs
  dsimp only [List.enum, List.enumFrom, List.foldl]
  rw [hpages, hpdf]
  rw [if_neg (show ¬ (false = true) by simp)]
  rw [if_neg (show ¬ ((pageChunks pages).isEmpty = true) by simpa using h)]
  rw [if_pos (show ((true, 0, (pageChunks pages).length,
        ([] : List (List VectorRec))).1 = true) from rfl)]
  simp

/-- C4 (witness). -/
theorem C4_embedding_failure_amended_witness :
    get_ollama_embedding all500 = [] ∧
    process_pdf (fun _ => all500) "doc.pdf" [helloPage] =
      (true, 0, (pageChunks [helloPage]).length, []) ∧
    process_pdfs (fun _ _ => all500) 0 0 [("doc.pdf", [helloPage])] =
      { total_pdfs := 1, successful_pdfs := 1, failed_pdfs := 0,
        total_chunks := (pageChunks [helloPage]).length,
        initial_vector_count := 0, final_vector_count := 0 } :=
  C4_embedding_failure_amended "doc.pdf" [helloPage] 0 0 (by decide)

/-- C5.  On every execution path of the realtime vectorization run —
all external calls succeeding, or any of them failing — the last
vector-index operation in the trace is the delete of the processed
symbol's vectors: the pipeline issues its cleanup both on the success
path (at the end of `process_ticker_data`) and on the failure path (in
the `except` arm of `main`). -/
theorem C5_cleanup_on_every_path (env : RtEnv) (symbol : String) :
    (rt_main env symbol).1.getLast? = some (VOp.deleteF symbol) := by
  unfold rt_main
  by_cases hp : (process_ticker_data env symbol).2 = true
  · rw [if_pos hp]
    exact process_ticker_success_last env symbol hp
  · rw [if_neg hp]
    exact List.getLast?_concat _

/-- C6.  Whenever the vector index is unavailable (the handle is absent
after lazy setup) or the `index.query` call itself raises, the
similarity search returns the empty list rather than an error. -/
theorem C6_search_degrades_to_empty (env : SearchEnv) (symbol : String) (top_k : Nat)
    (h : env.indexAvailable = false ∨ env.queryOutcome = Except.error ()) :
    (search_similar_market_conditions env symbol top_k).1 = [] := by
  unfold search_similar_market_conditions
  rcases h with h | h
  · rw [h]
    rw [if_pos rfl]
  · cases hA : env.indexAvailable
    · rw [if_pos rfl]
    · rw [if_neg (by simp)]
      dsimp only
      rw [h]

/-- C6 (witness). -/
theorem C6_search_degrades_to_empty_witness :
    (search_similar_market_conditions
      ⟨false, EmbedOutcome.exn, Except.ok []⟩ "AAPL" 5).1 = [] :=
  C6_search_degrades_to_empty ⟨false, EmbedOutcome.exn, Except.ok []⟩ "AAPL" 5
    (Or.inl rfl)

/-- C7.  Classifying the Iron-Condor scenario text yields
`has_trading_strategy = true`, a detected-patterns set containing the
options-spread category, and detected financial terms containing delta
and theta (as `finance:delta` and `finance:theta` entries of the
mathematical-concepts collection), for every set-iteration order. -/
theorem C7_iron_condor_scenario (so : List String → List String)
    (hso : ∀ l : List String, (so l).Perm l) :
    has_trading_strategy so ironCondorText = true ∧
    "options_spread" ∈ (analyze_trading_strategies so ironCondorText).detected_patterns ∧
    "finance:delta" ∈ (analyze_trading_strategies so ironCondorText).mathematical_concepts ∧
    "finance:theta" ∈ (analyze_trading_strategies so ironCondorText).mathematical_concepts := by
  have hpat : (analyze_trading_strategies so ironCondorText).detected_patterns =
      so (analyzeCore ironCondorText).detected_patterns := rfl
  have hmc : (analyze_trading_strategies so ironCondorText).mathematical_concepts =
      so (analyzeCore ironCondorText).mathematical_concepts := rfl
  refine ⟨?_, ?_, ?_, ?_⟩
  · have hflag : (analyze_trading_strategies so ironCondorText).options_strategies = true := by
      have hc : (analyzeCore ironCondorText).options_strategies = true := by decide
      exact hc
    unfold has_trading_strategy anyTruthy
    rw [hflag]
    simp
  · rw [hpat, (hso _).mem_iff]
    decide
  · rw [hmc, (hso _).mem_iff]
    decide
  · rw [hmc, (hso _).mem_iff]
    decide

/-- C7 (witness). -/
theorem C7_iron_condor_scenario_witness :
    has_trading_strategy id ironCondorText = true ∧
    "options_spread" ∈ (analyze_trading_strategies id ironCondorText).detected_patterns ∧
    "finance:delta" ∈ (analyze_trading_strategies id ironCondorText).mathematical_concepts ∧
    "finance:theta" ∈ (analyze_trading_strategies id ironCondorText).mathematical_concepts :=
  C7_iron_condor_scenario id (fun l => List.Perm.refl l)

/-- C8 (counterexample).  Byte-identical serialization across runs
fails: two set-iteration orders that are both permutations of the same
detected-pattern set (as produced by two CPython runs with different
hash salts) yield different serialized results on the Iron-Condor
text. -/
theorem C8_counterexample :
    ¬ ∀ so1 so2 : List String → List String,
        (∀ l : List String, (so1 l).Perm l) → (∀ l : List String, (so2 l).Perm l) →
        analyze_trading_strategies so1 ironCondorText =
          analyze_trading_strategies so2 ironCondorText := by
  intro hall
  have h2 := hall id List.reverse (fun l => List.Perm.refl l) (fun l => List.reverse_perm l)
  have h3 := congrArg StrategyResults.detected_patterns h2
  exact absurd h3 (by decide)

/-- C8 (amended).  The classifier is deterministic up to set-iteration
order: for a fixed text and fixed pattern tables, all eight boolean
flags coincide across runs, and the three serialized collections are
permutations of one another (equal as sets); only their list order may
differ between interpreter runs. -/
theorem C8_deterministic_up_to_order (text : List Char)
    (so1 so2 : List String → List String)
    (h1 : ∀ l : List String, (so1 l).Perm l) (h2 : ∀ l : List String, (so2 l).Perm l) :
    (analyze_trading_strategies so1 text).fundamental_analysis =
      (analyze_trading_strategies so2 text).fundamental_analysis ∧
    (analyze_trading_strategies so1 text).technical_analysis =
      (analyze_trading_strategies so2 text).technical_analysis ∧
    (analyze_trading_strategies so1 text).quantitative_methods =
      (analyze_trading_strategies so2 text).quantitative_methods ∧
    (analyze_trading_strategies so1 text).options_strategies =
      (analyze_trading_strategies so2 text).options_strategies ∧
    (analyze_trading_strategies so1 text).portfolio_management =
      (analyze_trading_strategies so2 text).portfolio_management ∧
    (analyze_trading_strategies so1 text).risk_management =
      (analyze_trading_strategies so2 text).risk_management ∧
    (analyze_trading_strategies so1 text).mathematical_trading =
      (analyze_trading_strategies so2 text).mathematical_trading ∧
    (analyze_trading_strategies so1 text).market_analysis =
      (analyze_trading_strategies so2 text).market_analysis ∧
    (analyze_trading_strategies so1 text).detected_patterns.Perm
      ((analyze_trading_strategies so2 text).detected_patterns) ∧
    (analyze_trading_strategies so1 text).detected_indicators.Perm
      ((analyze_trading_strategies so2 text).detected_indicators) ∧
    (analyze_trading_strategies so1 text).mathematical_concepts.Perm
      ((analyze_trading_strategies so2 text).mathematical_concepts) :=
  ⟨rfl, rfl, rfl, rfl, rfl, rfl, rfl, rfl,
   (h1 _).trans (h2 _).symm, (h1 _).trans (h2 _).symm, (h1 _).trans (h2 _).symm⟩

/-- C8 (witness). -/
theorem C8_deterministic_up_to_order_witness :
    (analyze_trading_strategies id ironCondorText).fundamental_analysis =
      (analyze_trading_strategies List.reverse ironCondorText).fundamental_analysis ∧
    (analyze_trading_strategies id ironCondorText).technical_analysis =
      (analyze_trading_strategies List.reverse ironCondorText).technical_analysis ∧
    (analyze_trading_strategies id ironCondorText).quantitative_methods =
      (analyze_trading_strategies List.reverse ironCondorText).quantitative_methods ∧
    (analyze_trading_strategies id ironCondorText).options_strategies =
      (analyze_trading_strategies List.reverse ironCondorText).options_strategies ∧
    (analyze_trading_strategies id ironCondorText).portfolio_management =
      (analyze_trading_strategies List.reverse ironCondorText).portfolio_management ∧
    (analyze_trading_strategies id ironCondorText).risk_management =
      (analyze_trading_strategies List.reverse ironCondorText).risk_management ∧
    (analyze_trading_strategies id ironCondorText).mathematical_trading =
      (analyze_trading_strategies List.reverse ironCondorText).mathematical_trading ∧
    (analyze_trading_strategies id ironCondorText).market_analysis =
      (analyze_trading_strategies List.reverse ironCondorText).market_analysis ∧
    (analyze_trading_strategies id ironCondorText).detected_patterns.Perm
      ((analyze_trading_strategies List.reverse ironCondorText).detected_patterns) ∧
    (analyze_trading_strategies id ironCondorText).detected_indicators.Perm
      ((analyze_trading_strategies List.reverse ironCondorText).detected_indicators) ∧
    (analyze_trading_strategies id ironCondorText).mathematical_concepts.Perm
      ((analyze_trading_strategies List.reverse ironCondorText).mathematical_concepts) :=
  C8_deterministic_up_to_order ironCondorText id List.reverse
    (fun l => List.Perm.refl l) (fun l => List.reverse_perm l)

/-- C9.  `has_trading_strategy` is exactly the truthiness of the
analysis dictionary, so a text whose only hit is a single mathematical
term — `variance`, which matches no strategy pattern, no indicator and
sets no flag — is still reported as containing a trading strategy,
because its nonempty mathematical-concepts list makes
`any(strategy_info.values())` true. -/
theorem C9_truthiness_includes_terms :
    (∀ (so : List String → List String) (text : List Char),
      has_trading_strategy so text = anyTruthy (analyze_trading_strategies so text)) ∧
    has_trading_strategy id varianceText = true ∧
    (analyze_trading_strategies id varianceText).detected_patterns = [] ∧
    (analyze_trading_strategies id varianceText).detected_indicators = [] ∧
    (analyze_trading_strategies id varianceText).fundamental_analysis = false ∧
    (analyze_trading_strategies id varianceText).technical_analysis = false ∧
    (analyze_trading_strategies id varianceText).quantitative_methods = false ∧
    (analyze_trading_strategies id varianceText).options_strategies = false ∧
    (analyze_trading_strategies id varianceText).portfolio_management = false ∧
    (analyze_trading_strategies id varianceText).risk_management = false ∧
    (analyze_trading_strategies id varianceText).mathematical_trading = false ∧
    (analyze_trading_strategies id varianceText).market_analysis = false ∧
    (analyze_trading_strategies id varianceText).mathematical_concepts =
      ["probability:variance"] := by
  refine ⟨fun so text => rfl, ?_, ?_, ?_, ?_, ?_, ?_, ?_, ?_, ?_, ?_, ?_, ?_⟩
  all_goals decide

/-- C10.  On the query path a failed embedding request (non-200 status
or a raised exception) is not surfaced: `_get_embedding` returns the
zero vector of length 2048, and the search then queries the vector
index with that zero vector instead of returning an empty result. -/
theorem C10_zero_vector_query (env : SearchEnv) (symbol : String) (top_k : Nat)
    (hAvail : env.indexAvailable = true)
    (hFail : env.embedResp = EmbedOutcome.exn ∨
      ∃ s body, env.embedResp = EmbedOutcome.response s body ∧ s ≠ 200) :
    vs_get_embedding env.embedResp = List.replicate 2048 0 ∧
    (vs_get_embedding env.embedResp).length = 2048 ∧
    (search_similar_market_conditions env symbol top_k).2 =
      some ⟨List.replicate 2048 0, top_k,
            if symbol ≠ "general" then some symbol else none⟩ := by
  have hzero : vs_get_embedding env.embedResp = List.replicate 2048 0 := by
    rcases hFail with h | ⟨s, body, heq, hs⟩
    · rw [h]
      rfl
    · rw [heq]
      unfold vs_get_embedding
      dsimp only
      rw [if_neg hs]
  refine ⟨hzero, by rw [hzero]; simp, ?_⟩
  unfold search_similar_market_conditions
  rw [hAvail]
  rw [if_neg (by simp)]
  dsimp only
  rw [hzero]
  cases env.queryOutcome <;> rfl

/-- C10 (witness). -/
theorem C10_zero_vector_query_witness :
    vs_get_embedding (EmbedOutcome.response 500 []) = List.replicate 2048 0 ∧
    (vs_get_embedding (EmbedOutcome.response 500 [])).length = 2048 ∧
    (search_similar_market_conditions
        ⟨true, EmbedOutcome.response 500 [], Except.ok []⟩ "AAPL" 5).2 =
      some ⟨List.replicate 2048 0, 5,
            if "AAPL" ≠ "general" then some "AAPL" else none⟩ :=
  C10_zero_vector_query ⟨true, EmbedOutcome.response 500 [], Except.ok []⟩ "AAPL" 5
    rfl (Or.inr ⟨500, [], rfl, by decide⟩)

end Robin
